import Mathlib

/-!
Shallow embedding of the Freight migration orchestration engine.

The embedded code lives in `src/src/orchestrator.py`, `src/src/config.py`,
`src/src/scan_result.py` (the current modular package), `src/freight/display.py`
(the display module the modular orchestrator uses), and, where a claim cites it,
the legacy monolith `src/freight.py`.

Filesystem reads, JSON parsing and the external tool invocations are modelled
by explicit inputs: an artifact file on disk is a `FileState` (missing, parsed
value, or malformed), and an external tool run is an oracle from a candidate
name to an invocation result.  Python dictionaries parsed from artifacts are
modelled as records of the fields the engine reads, each `Option` because the
key may be absent; an extra-keys component keeps dict truthiness faithful.
All numeric fields are `Int` (Python arbitrary-precision ints) and the one
division (`completion_rate`) uses `ℚ`.
-/

namespace Freight

/-- State of a per-candidate artifact file on disk: absent, present and
parseable to a value, or present but malformed (parse failure). -/
inductive FileState (α : Type) where
  | missing : FileState α
  | ok (val : α) : FileState α
  | malformed : FileState α
deriving DecidableEq

/-- The parsed scan artifact dict (`.freight/scan.json`), restricted to the
fields the engine reads; every key may be absent in the JSON object. -/
structure ScanData where
  size_bytes : Option Int
  file_count : Option Int
  scan_time : Option String
  directory_mtime : Option Int
deriving DecidableEq

/-- One entry of the clean artifact's `patterns` list. -/
structure CleanPattern where
  pattern : String
  bytes_saved : Option Int
deriving DecidableEq

/-- The parsed clean artifact dict (`.freight/clean.json`).  `extraKeys` holds
any other keys present in the JSON object, so that Python dict truthiness
(`bool(self.clean_data)`) is modelled faithfully: the dict is empty iff both
known keys are absent and there are no other keys. -/
structure CleanData where
  bytes_cleaned : Option Int
  patterns : Option (List CleanPattern)
  extraKeys : List String
deriving DecidableEq

/-- The empty scan dict `{}`. -/
def emptyScanData : ScanData := ⟨none, none, none, none⟩

/-- The empty clean dict `{}`. -/
def emptyCleanData : CleanData := ⟨none, none, []⟩

/-- Python `bool(d)` is false exactly on the empty dict. -/
def CleanData.isEmptyDict (c : CleanData) : Bool :=
  c.bytes_cleaned.isNone && c.patterns.isNone && c.extraKeys.isEmpty

/-- `ScanResult` (`src/src/scan_result.py`): per-candidate state built by the
aggregator.  `scan_data` / `clean_data` store the parsed dicts (the empty dict
when the artifact was missing or unparseable, per `__init__`). -/
structure ScanResult where
  directory : String
  has_scan : Bool
  scan_data : ScanData
  clean_data : CleanData
deriving DecidableEq

/-- Helper for `basename`: walk the characters, restarting the accumulator at
every slash, so the final accumulator is the component after the last slash. -/
def basenameChars : List Char → List Char → List Char
  | cur, [] => cur.reverse
  | _cur, '/' :: cs => basenameChars [] cs
  | cur, c :: cs => basenameChars (c :: cur) cs

/-- `os.path.basename`: the component after the last slash (empty for a
trailing slash). -/
def basename (p : String) : String := String.mk (basenameChars [] p.data)

/-- Python string comparison is lexicographic on code points; `lexLeNat` is
that order on code-point lists. -/
def lexLeNat : List Nat → List Nat → Bool
  | [], _ => true
  | _ :: _, [] => false
  | a :: as, b :: bs => if a < b then true else if b < a then false else lexLeNat as bs

/-- Python `s <= t` on strings (code-point lexicographic). -/
def strLe (a b : String) : Bool := lexLeNat (a.data.map Char.toNat) (b.data.map Char.toNat)

theorem lexLeNat_cons_iff {a b : Nat} {as bs : List Nat} :
    lexLeNat (a :: as) (b :: bs) = true ↔
      a < b ∨ (a = b ∧ lexLeNat as bs = true) := by
  by_cases h1 : a < b
  · simp [lexLeNat, h1]
  · by_cases h2 : b < a
    · simp [lexLeNat, h1, h2]
      omega
    · have hab : a = b := by omega
      simp [lexLeNat, h1, h2, hab]

theorem lexLeNat_total : ∀ as bs : List Nat,
    lexLeNat as bs = true ∨ lexLeNat bs as = true
  | [], _ => .inl rfl
  | _ :: _, [] => .inr rfl
  | a :: as, b :: bs => by
    rcases Nat.lt_trichotomy a b with h | h | h
    · exact .inl (lexLeNat_cons_iff.mpr (.inl h))
    · rcases lexLeNat_total as bs with hr | hr
      · exact .inl (lexLeNat_cons_iff.mpr (.inr ⟨h, hr⟩))
      · exact .inr (lexLeNat_cons_iff.mpr (.inr ⟨h.symm, hr⟩))
    · exact .inr (lexLeNat_cons_iff.mpr (.inl h))

theorem lexLeNat_trans : ∀ as bs cs : List Nat,
    lexLeNat as bs = true → lexLeNat bs cs = true → lexLeNat as cs = true
  | [], _, _, _, _ => rfl
  | _ :: _, [], _, h1, _ => by simp [lexLeNat] at h1
  | _ :: _, _ :: _, [], _, h2 => by simp [lexLeNat] at h2
  | a :: as, b :: bs, c :: cs, h1, h2 => by
    rcases lexLeNat_cons_iff.mp h1 with hab | ⟨hab, hr1⟩ <;>
      rcases lexLeNat_cons_iff.mp h2 with hbc | ⟨hbc, hr2⟩
    · exact lexLeNat_cons_iff.mpr (.inl (hab.trans hbc))
    · exact lexLeNat_cons_iff.mpr (.inl (hbc ▸ hab))
    · exact lexLeNat_cons_iff.mpr (.inl (hab ▸ hbc))
    · exact lexLeNat_cons_iff.mpr (.inr ⟨hab.trans hbc, lexLeNat_trans as bs cs hr1 hr2⟩)

theorem strLe_total (a b : String) : strLe a b = true ∨ strLe b a = true :=
  lexLeNat_total _ _

theorem strLe_trans {a b c : String} :
    strLe a b = true → strLe b c = true → strLe a c = true :=
  lexLeNat_trans _ _ _

/-- `ScanResult.__init__`: `self.scan_data = scan_data or {}` and
`self.clean_data = clean_data or {}` replace a `None` argument (and an already
empty dict) by the empty dict. -/
def ScanResult.init (directory : String) (has_scan : Bool)
    (scan_data : Option ScanData) (clean_data : Option CleanData) : ScanResult :=
  { directory := directory
    has_scan := has_scan
    scan_data := scan_data.getD emptyScanData
    clean_data := clean_data.getD emptyCleanData }

/-- `ScanResult.name = os.path.basename(directory)`. -/
def ScanResult.name (r : ScanResult) : String := basename r.directory

/-- `ScanResult.has_clean_data`: Python `bool(self.clean_data)`. -/
def ScanResult.has_clean_data (r : ScanResult) : Bool :=
  !r.clean_data.isEmptyDict

/-- `ScanResult.size_bytes`: 0 without scan data, else the `size_bytes` key
with 0 substituted for a missing key or `None` value. -/
def ScanResult.size_bytes (r : ScanResult) : Int :=
  if r.has_scan then r.scan_data.size_bytes.getD 0 else 0

/-- `ScanResult.file_count`: analogous to `size_bytes`. -/
def ScanResult.file_count (r : ScanResult) : Int :=
  if r.has_scan then r.scan_data.file_count.getD 0 else 0

/-- `ScanResult.bytes_cleaned`: 0 without clean data, else the `bytes_cleaned`
key with 0 substituted for a missing key or `None` value. -/
def ScanResult.bytes_cleaned (r : ScanResult) : Int :=
  if r.has_clean_data then r.clean_data.bytes_cleaned.getD 0 else 0

/-- `ScanResult.problem_directories`: the `patterns` entries with
`bytes_saved > 0` (0 substituted for a missing `bytes_saved` key); empty
without clean data or without a `patterns` key. -/
def ScanResult.problem_directories (r : ScanResult) : List CleanPattern :=
  if r.has_clean_data then
    match r.clean_data.patterns with
    | none => []
    | some ps => ps.filter (fun p => p.bytes_saved.getD 0 > 0)
  else []

/-! ### Incremental scan scheduler: `FreightOrchestrator._should_skip_scan` -/

/-- The `directory_mtime` entry of a parsed scan artifact as
`_should_skip_scan` consumes it: key absent (or JSON `null`), present but not
convertible by `int(...)` (raises `ValueError`, caught), or an integer. -/
inductive MtimeField where
  | absent : MtimeField
  | nonInt : MtimeField
  | intVal (m : Int) : MtimeField
deriving DecidableEq

/-- The scan artifact as `_should_skip_scan` reads it from disk. -/
inductive ScanArtifactState where
  | missing : ScanArtifactState
  | unparseable : ScanArtifactState
  | parsed (f : MtimeField) : ScanArtifactState
deriving DecidableEq

/-- `FreightOrchestrator._should_skip_scan` (`src/src/orchestrator.py:275`):
given the artifact state and the directory's current mtime (already truncated
to integer seconds by `int(dir_stat.st_mtime)`), return `(should_skip, reason)`.
A missing artifact, a parse failure, a missing `directory_mtime` key, or a
non-integer value all yield `False`; otherwise skip iff
`dir_mtime <= scan_dir_mtime`. -/
def should_skip_scan (art : ScanArtifactState) (dir_mtime : Int) : Bool × String :=
  match art with
  | .missing => (false, "")
  | .unparseable => (false, "scan data invalid: JSONDecodeError")
  | .parsed .absent => (false, "no mtime in scan data")
  | .parsed .nonInt => (false, "scan data invalid: ValueError")
  | .parsed (.intVal m) =>
    if dir_mtime ≤ m then (true, "no changes") else (false, "directory modified")

/-! ### Statistics: `FreightOrchestrator.get_statistics` -/

/-- The statistics dict returned by `get_statistics`. -/
structure Stats where
  total_directories : Nat
  scanned_directories : Nat
  unscanned_directories : Nat
  completion_rate : ℚ
  total_size_bytes : Int
  total_files : Int
  total_cleanable_bytes : Int
deriving DecidableEq

/-- `FreightOrchestrator.get_statistics` (`src/src/orchestrator.py:74`,
identically `src/freight.py:162`): counts, sums over scanned candidates and
candidates with clean data, and the guarded completion rate. -/
def get_statistics (rs : List ScanResult) : Stats :=
  let total_dirs := rs.length
  let scanned_dirs := rs.countP (fun r => r.has_scan)
  let total_size := ((rs.filter (fun r => r.has_scan)).map ScanResult.size_bytes).sum
  let total_files := ((rs.filter (fun r => r.has_scan)).map ScanResult.file_count).sum
  let total_cleanable :=
    ((rs.filter (fun r => r.has_clean_data)).map ScanResult.bytes_cleaned).sum
  { total_directories := total_dirs
    scanned_directories := scanned_dirs
    unscanned_directories := total_dirs - scanned_dirs
    completion_rate :=
      if 0 < total_dirs then (scanned_dirs : ℚ) / (total_dirs : ℚ) * 100 else 0
    total_size_bytes := total_size
    total_files := total_files
    total_cleanable_bytes := total_cleanable }

/-! ### Candidate aggregation: `FreightOrchestrator.scan_directories` -/

/-- One candidate directory as the aggregator finds it on disk: its path and
the states of its two artifact files. -/
structure CandidateFS where
  dir : String
  scanFile : FileState ScanData
  cleanFile : FileState CleanData
deriving DecidableEq

/-- The per-candidate body of the `scan_directories` loop
(`src/src/orchestrator.py:47`): `has_scan` is set only when the scan artifact
exists and parses; a missing or malformed artifact leaves the corresponding
data `None` (stored as the empty dict by `ScanResult.__init__`). -/
def aggregateCandidate (c : CandidateFS) : ScanResult :=
  let scan_data : Option ScanData :=
    match c.scanFile with | .ok sd => some sd | _ => none
  let has_scan : Bool :=
    match c.scanFile with | .ok _ => true | _ => false
  let clean_data : Option CleanData :=
    match c.cleanFile with | .ok cd => some cd | _ => none
  ScanResult.init c.dir has_scan scan_data clean_data

/-- The diagnostic-stream warnings the loop body prints for one candidate:
one per present-but-unparseable artifact. -/
def candidateWarnings (c : CandidateFS) : List String :=
  (match c.scanFile with
   | .malformed => ["Warning: Could not parse scan.json in " ++ c.dir]
   | _ => []) ++
  (match c.cleanFile with
   | .malformed => ["Warning: Could not parse clean.json in " ++ c.dir]
   | _ => [])

/-- The `sorted(subdirs)` order: paths under one parent compare by name. -/
def candLe (a b : CandidateFS) : Prop := strLe a.dir b.dir = true

instance : DecidableRel candLe := fun a b =>
  inferInstanceAs (Decidable (strLe a.dir b.dir = true))

instance : IsTotal CandidateFS candLe := ⟨fun a b => strLe_total a.dir b.dir⟩

instance : IsTrans CandidateFS candLe := ⟨fun _ _ _ => strLe_trans⟩

/-- `FreightOrchestrator.scan_directories` (`src/src/orchestrator.py:36`,
identically `src/freight.py:123`): visit the candidates in name order, build a
`ScanResult` for each, and emit the parse warnings.  (Python sorts with a
stable sort; `insertionSort` over the total preorder `candLe` produces the
same list.) -/
def scan_directories (cands : List CandidateFS) : List ScanResult × List String :=
  let sorted := List.insertionSort candLe cands
  (sorted.map aggregateCandidate, sorted.flatMap candidateWarnings)

/-! ### Migration sequencer: `FreightOrchestrator.run_migration` -/

/-- Ascending-size comparison used by `sorted(scanned_dirs, key=lambda r:
r.size_bytes)`. -/
def sizeLe (a b : ScanResult) : Prop := a.size_bytes ≤ b.size_bytes

instance : DecidableRel sizeLe := fun a b =>
  inferInstanceAs (Decidable (a.size_bytes ≤ b.size_bytes))

instance : IsTotal ScanResult sizeLe := ⟨fun a b => le_total a.size_bytes b.size_bytes⟩

instance : IsTrans ScanResult sizeLe := ⟨fun _ _ _ => le_trans⟩

/-- The migration plan order (`src/src/orchestrator.py:372` and `:386`): the
candidates with scan data, stably sorted ascending by `size_bytes` (Python
`sorted` is stable; `insertionSort` over the total preorder `sizeLe` produces
the same list). -/
def migrationOrder (rs : List ScanResult) : List ScanResult :=
  List.insertionSort sizeLe (rs.filter (fun r => r.has_scan))

/-- Result of one external `freight-migrate.sh` invocation: exit 0, non-zero
exit (`subprocess.CalledProcessError`), or a process-start failure (any other
exception, e.g. `FileNotFoundError`). -/
inductive InvokeResult where
  | success : InvokeResult
  | nonZeroExit : InvokeResult
  | startFailure : InvokeResult
deriving DecidableEq

/-- Running state of the migration execution loop: which candidates have had
an invocation, and the counters and failed-name list for the final summary. -/
structure MigState where
  attempted : List String
  successful : Nat
  failed : Nat
  failed_dirs : List String
deriving DecidableEq

/-- Loop state before the first candidate. -/
def initMigState : MigState := ⟨[], 0, 0, []⟩

/-- The confirmed-migration execution loop (`src/src/orchestrator.py:417`).
One blocking invocation per candidate, in order.  The `try` catches only
`subprocess.CalledProcessError` (non-zero exit), which increments the failure
counter, records the name, and continues; any other exception (a process-start
failure) escapes the loop, modelled as `.error` carrying the state reached —
its `attempted` list shows which invocations ran before the abort. -/
def executeMigrations (invoke : String → InvokeResult) :
    List ScanResult → MigState → Except MigState MigState
  | [], st => .ok st
  | r :: rest, st =>
    let st1 : MigState := { st with attempted := st.attempted ++ [r.name] }
    match invoke r.name with
    | .success =>
      executeMigrations invoke rest { st1 with successful := st1.successful + 1 }
    | .nonZeroExit =>
      executeMigrations invoke rest
        { st1 with failed := st1.failed + 1
                   failed_dirs := st1.failed_dirs ++ [r.name] }
    | .startFailure => .error st1

/-- The confirmed path of `run_migration` after its precondition checks:
execute the external migrations over the planned order. -/
def run_migration_exec (rs : List ScanResult) (invoke : String → InvokeResult) :
    Except MigState MigState :=
  executeMigrations invoke (migrationOrder rs) initMigState

/-! ### GlobalConfig: `src/src/config.py` (and the legacy `src/freight.py`) -/

/-- The `clean` sub-record of the global config, restricted to the fields the
shared-directory analysis reads. -/
structure CleanSection where
  shared_directory_threshold : Option Int
  shared_directory_ignore : Option (List String)
deriving DecidableEq

/-- The `scan` sub-record of the global config (the statistics sink). -/
structure ScanSection where
  last_scan_time : Option String
  total_directories : Int
  total_size_bytes : Int
deriving DecidableEq

/-- The parsed global config, restricted to the sub-records the embedded
operations touch.  The `clean` key may be absent. -/
structure ConfigJson where
  clean : Option CleanSection
  scan : ScanSection
deriving DecidableEq

/-- `ConfigManager.get_shared_directory_threshold` (`src/src/config.py:108`):
`None` when the file is missing or unparseable, when the `clean` sub-record is
absent, or when it lacks the threshold key. -/
def get_shared_directory_threshold : FileState ConfigJson → Option Int
  | .ok cfg =>
    match cfg.clean with
    | none => none
    | some cl => cl.shared_directory_threshold
  | _ => none

/-- `FreightOrchestrator.get_shared_directory_threshold` of the legacy
monolith (`src/freight.py:559`): the same lookup but with the default 2 for a
missing file, parse failure, or missing key. -/
def legacy_get_shared_directory_threshold : FileState ConfigJson → Int
  | .ok cfg =>
    match cfg.clean with
    | none => 2
    | some cl => cl.shared_directory_threshold.getD 2
  | _ => 2

/-- The always-applied implicit ignore set (`src/src/config.py:129`). -/
def implicit_ignores : List String := [".freight", ".ssh"]

/-- `ConfigManager._get_additional_shared_ignores` (`src/src/config.py:141`):
`None` when the file is missing or unparseable; the empty list when the
`clean` sub-record or the key is absent. -/
def get_additional_shared_ignores : FileState ConfigJson → Option (List String)
  | .ok cfg =>
    match cfg.clean with
    | none => some []
    | some cl => some (cl.shared_directory_ignore.getD [])
  | _ => none

/-- `ConfigManager.get_shared_directory_ignore_list` (`src/src/config.py:126`):
the implicit set alone when the config is unreadable, otherwise
`list(set(implicit + additional))` — modelled as `dedup` of the concatenation,
which has the same members without duplicates (Python leaves the set iteration
order unspecified). -/
def get_shared_directory_ignore_list (cfg : FileState ConfigJson) : List String :=
  match get_additional_shared_ignores cfg with
  | none => implicit_ignores
  | some add => (implicit_ignores ++ add).dedup

/-- `ConfigManager.update_config_stats` (`src/src/config.py:91`): a missing or
unparseable config file is left untouched (`return` / swallowed exception);
otherwise exactly `scan.total_directories` and `scan.total_size_bytes` are
overwritten from the statistics dict and the file rewritten. -/
def update_config_stats (cfg : FileState ConfigJson) (stats : Stats) :
    FileState ConfigJson :=
  match cfg with
  | .ok c =>
    .ok { c with scan := { c.scan with
            total_directories := (stats.total_directories : Int)
            total_size_bytes := stats.total_size_bytes } }
  | other => other

/-! ### Shared-directory frequency analysis -/

/-- One candidate as the analyzer sees it: its immediate child directory
names, or a permission error while listing them. -/
structure CandidateChildren where
  dir : String
  children : FileState (List String)
deriving DecidableEq

/-- `directory_counts[name] = directory_counts.get(name, 0) + 1` on an
insertion-ordered dict modelled as an association list. -/
def bump : List (String × Nat) → String → List (String × Nat)
  | [], nm => [(nm, 1)]
  | (k, v) :: rest, nm =>
    if k = nm then (k, v + 1) :: rest else (k, v) :: bump rest nm

/-- `FreightOrchestrator.analyze_shared_directories`
(`src/src/orchestrator.py:313`): count each child name not in the ignore list
across all candidates; a candidate whose listing fails is skipped. -/
def analyze_shared_directories (cands : List CandidateChildren)
    (ignore : List String) : List (String × Nat) :=
  cands.foldl
    (fun counts c =>
      match c.children with
      | .ok names =>
        names.foldl (fun cs nm => if nm ∈ ignore then cs else bump cs nm) counts
      | _ => counts)
    []

/-- The display sort key `lambda x: (-x[1], x[0])`: count descending, then
name ascending. -/
def sharedRel (a b : String × Nat) : Prop :=
  b.2 < a.2 ∨ (a.2 = b.2 ∧ strLe a.1 b.1 = true)

instance : DecidableRel sharedRel := fun a b =>
  inferInstanceAs (Decidable (b.2 < a.2 ∨ (a.2 = b.2 ∧ strLe a.1 b.1 = true)))

instance : IsTotal (String × Nat) sharedRel :=
  ⟨fun a b => by
    rcases Nat.lt_trichotomy a.2 b.2 with h | h | h
    · exact .inr (.inl h)
    · rcases strLe_total a.1 b.1 with hs | hs
      · exact .inl (.inr ⟨h, hs⟩)
      · exact .inr (.inr ⟨h.symm, hs⟩)
    · exact .inl (.inl h)⟩

instance : IsTrans (String × Nat) sharedRel :=
  ⟨fun a b c hab hbc => by
    rcases hab with hab | ⟨hab, hab2⟩ <;> rcases hbc with hbc | ⟨hbc, hbc2⟩
    · exact .inl (hbc.trans hab)
    · exact .inl (hbc ▸ hab)
    · exact .inl (hab ▸ hbc)
    · exact .inr ⟨hab.trans hbc, strLe_trans hab2 hbc2⟩⟩

/-- The retained-and-ordered shared list of
`DisplayManager.display_shared_directories` (`src/freight/display.py:183` and
`:191`, identically `src/freight.py:602` and `:610`): keep the entries with
`count >= threshold`, then sort by count descending with name ascending as the
tie-break (Python stable sort over the total preorder `sharedRel`). -/
def sortedShared (counts : List (String × Nat)) (threshold : Int) :
    List (String × Nat) :=
  List.insertionSort sharedRel
    (counts.filter (fun x => threshold ≤ (x.2 : Int)))

/-- The filtering step of `display_shared_directories` as reached from the
modular orchestrator (`src/src/orchestrator.py:340`), where the threshold
argument is the `Optional[int]` returned by the config manager: with a
nonempty counts dict and a `None` threshold, the first comparison
`count >= threshold` raises `TypeError`, aborting the analysis; an empty
counts dict returns early before the comparison. -/
def display_shared_filter (counts : List (String × Nat))
    (threshold : Option Int) : Except String (List (String × Nat)) :=
  if counts.isEmpty then .ok []
  else
    match threshold with
    | none => .error "TypeError: unsupported comparison between int and NoneType"
    | some t => .ok (sortedShared counts t)

/-! ### Overview data: `FreightOrchestrator.get_overview_data` -/

/-- One entry of the serialized `directories` list. -/
structure DirEntry where
  name : String
  directory : String
  has_scan : Bool
  size_bytes : Int
  file_count : Int
  has_clean_data : Bool
  bytes_cleaned : Int
  scan_time : Option String
deriving DecidableEq

/-- The overview report `{stats, directories[], migration_root}`. -/
structure OverviewData where
  stats : Stats
  directories : List DirEntry
  migration_root : String
deriving DecidableEq

/-- `FreightOrchestrator.get_overview_data` (`src/src/orchestrator.py:113`):
compute the statistics, persist them into the config (side effect, returned
here as the second component), and serialize the candidate list. -/
def get_overview_data (root : String) (cfg : FileState ConfigJson)
    (rs : List ScanResult) : OverviewData × FileState ConfigJson :=
  let stats := get_statistics rs
  let cfg1 := update_config_stats cfg stats
  ({ stats := stats
     directories := rs.map (fun r =>
       { name := r.name
         directory := r.directory
         has_scan := r.has_scan
         size_bytes := r.size_bytes
         file_count := r.file_count
         has_clean_data := r.has_clean_data
         bytes_cleaned := r.bytes_cleaned
         scan_time := r.scan_data.scan_time })
     migration_root := root }, cfg1)

/-! ### Theorems -/

/-- C1: the incremental scan scheduler skips a candidate iff its scan artifact
exists, parses, carries an integer `directory_mtime`, and the directory's
current mtime is at most that recorded value; a missing artifact, parse
failure, or missing/non-integer `directory_mtime` never skips. -/
theorem should_skip_scan_iff (art : ScanArtifactState) (dir_mtime : Int) :
    (should_skip_scan art dir_mtime).1 = true ↔
      ∃ m, art = .parsed (.intVal m) ∧ dir_mtime ≤ m := by
  cases art with
  | missing => simp [should_skip_scan]
  | unparseable => simp [should_skip_scan]
  | parsed f =>
    cases f with
    | absent => simp [should_skip_scan]
    | nonInt => simp [should_skip_scan]
    | intVal m =>
      by_cases h : dir_mtime ≤ m <;> simp [should_skip_scan, h]

/-- C5: `completion_rate` is 0 for an empty candidate list and
`scanned / total * 100` otherwise; the zero case is a defined result. -/
theorem completion_rate_spec (rs : List ScanResult) :
    ((get_statistics rs).total_directories = 0 →
      (get_statistics rs).completion_rate = 0) ∧
    (0 < (get_statistics rs).total_directories →
      (get_statistics rs).completion_rate =
        ((get_statistics rs).scanned_directories : ℚ) /
          ((get_statistics rs).total_directories : ℚ) * 100) := by
  constructor
  · intro h
    simp only [get_statistics] at h ⊢
    simp [h]
  · intro h
    simp only [get_statistics] at h ⊢
    simp [h]

/-- A scanned candidate of a given size, as the aggregator would build it. -/
def mkScanned (nm : String) (sz : Int) : ScanResult :=
  ScanResult.init nm true
    (some { size_bytes := some sz, file_count := some 1
            scan_time := none, directory_mtime := none }) none

/-- C2: the migration plan is a permutation of the candidates with scan data,
sorted ascending by `size_bytes`; execution runs over exactly that order; and
candidates of equal size keep their input order (stability). -/
theorem migration_order_spec (rs : List ScanResult) :
    (migrationOrder rs).Perm (rs.filter (fun r => r.has_scan)) ∧
    List.Sorted sizeLe (migrationOrder rs) ∧
    (∀ invoke, run_migration_exec rs invoke =
      executeMigrations invoke (migrationOrder rs) initMigState) ∧
    (∀ a b : ScanResult, [a, b].Sublist rs → a.has_scan = true →
      b.has_scan = true → a.size_bytes = b.size_bytes →
      [a, b].Sublist (migrationOrder rs)) := by
  refine ⟨List.perm_insertionSort _ _, List.sorted_insertionSort _ _,
    fun _ => rfl, ?_⟩
  intro a b hsub ha hb heq
  apply List.pair_sublist_insertionSort (show sizeLe a b from le_of_eq heq)
  have hf := hsub.filter (fun r => r.has_scan)
  simpa [List.filter_cons, ha, hb] using hf

/-- Witness for C2: sizes 50, 10, 30 are planned in order 10, 30, 50, and two
equal-sized candidates keep their input order in the plan. -/
theorem migration_order_spec_witness :
    migrationOrder [mkScanned "a" 50, mkScanned "b" 10, mkScanned "c" 30] =
      [mkScanned "b" 10, mkScanned "c" 30, mkScanned "a" 50] ∧
    [mkScanned "d" 7, mkScanned "e" 7].Sublist
      (migrationOrder [mkScanned "d" 7, mkScanned "a" 50, mkScanned "e" 7]) :=
  ⟨by decide,
   (migration_order_spec [mkScanned "d" 7, mkScanned "a" 50, mkScanned "e" 7]).2.2.2
     (mkScanned "d" 7) (mkScanned "e" 7) (by decide) (by decide) (by decide)
     (by decide)⟩

/-- Unfolded form of the execution loop when no invocation raises a
process-start failure: every candidate is attempted in order and the counters
accumulate per invocation outcome. -/
theorem executeMigrations_no_startFailure (invoke : String → InvokeResult) :
    ∀ (dirs : List ScanResult) (st : MigState),
      (∀ r ∈ dirs, invoke r.name ≠ .startFailure) →
      executeMigrations invoke dirs st = .ok
        { attempted := st.attempted ++ dirs.map ScanResult.name
          successful := st.successful +
            dirs.countP (fun r => invoke r.name == .success)
          failed := st.failed +
            dirs.countP (fun r => invoke r.name == .nonZeroExit)
          failed_dirs := st.failed_dirs ++
            (dirs.filter (fun r => invoke r.name == .nonZeroExit)).map
              ScanResult.name }
  | [], st, _ => by simp [executeMigrations]
  | r :: rest, st, h => by
    have hr := h r (List.mem_cons_self ..)
    have hrest : ∀ x ∈ rest, invoke x.name ≠ .startFailure :=
      fun x hx => h x (List.mem_cons_of_mem _ hx)
    cases hi : invoke r.name with
    | success =>
      simp only [executeMigrations, hi]
      rw [executeMigrations_no_startFailure invoke rest _ hrest]
      simp [List.countP_cons, List.filter_cons, hi, List.append_assoc,
        MigState.mk.injEq]
      omega
    | nonZeroExit =>
      simp only [executeMigrations, hi]
      rw [executeMigrations_no_startFailure invoke rest _ hrest]
      simp [List.countP_cons, List.filter_cons, hi, List.append_assoc,
        MigState.mk.injEq]
      omega
    | startFailure => exact absurd hi hr

/-- Invocation oracle where only candidate `b` suffers a process-start
failure. -/
def cexInvoke : String → InvokeResult :=
  fun nm => if nm = "b" then .startFailure else .success

/-- C3 counterexample: with three candidates where the second invocation is a
process-start failure (an exception other than a non-zero exit), the loop
aborts — the third candidate is never attempted and no summary is produced,
contradicting the claim that such a failure never stops processing. -/
theorem migration_start_failure_aborts :
    executeMigrations cexInvoke
        [mkScanned "a" 1, mkScanned "b" 2, mkScanned "c" 3] initMigState =
      .error { attempted := ["a", "b"], successful := 1, failed := 0
               failed_dirs := [] } ∧
    ∀ st : MigState,
      executeMigrations cexInvoke
          [mkScanned "a" 1, mkScanned "b" 2, mkScanned "c" 3] initMigState ≠
        .ok st := by
  refine ⟨rfl, fun st h => ?_⟩
  rw [show executeMigrations cexInvoke
      [mkScanned "a" 1, mkScanned "b" 2, mkScanned "c" 3] initMigState =
      .error { attempted := ["a", "b"], successful := 1, failed := 0
               failed_dirs := [] } from rfl] at h
  exact Except.noConfusion h

/-- C3 amended: when every invocation either succeeds or exits non-zero (no
process-start failure), a failing invocation is recorded as that candidate's
failure and never stops processing: all candidates are attempted in order, and
the final summary reports successful and failed counts summing to the total
plus the failed-candidate name list. -/
theorem migration_partial_failure (dirs : List ScanResult)
    (invoke : String → InvokeResult)
    (h : ∀ r ∈ dirs, invoke r.name ≠ .startFailure) :
    ∃ st : MigState, executeMigrations invoke dirs initMigState = .ok st ∧
      st.attempted = dirs.map ScanResult.name ∧
      st.successful = dirs.countP (fun r => invoke r.name == .success) ∧
      st.failed = dirs.countP (fun r => invoke r.name == .nonZeroExit) ∧
      st.successful + st.failed = dirs.length ∧
      st.failed_dirs =
        (dirs.filter (fun r => invoke r.name == .nonZeroExit)).map
          ScanResult.name := by
  refine ⟨_, executeMigrations_no_startFailure invoke dirs initMigState h,
    by simp [initMigState], by simp [initMigState], by simp [initMigState],
    ?_, by simp [initMigState]⟩
  simp only [initMigState, Nat.zero_add]
  have hlen := List.length_eq_countP_add_countP
    (fun r => invoke r.name == InvokeResult.success) dirs
  have hco : dirs.countP
      (fun r => decide ¬(invoke r.name == InvokeResult.success) = true) =
      dirs.countP (fun r => invoke r.name == InvokeResult.nonZeroExit) := by
    apply List.countP_congr
    intro r hrm
    cases hir : invoke r.name with
    | success => simp [hir]
    | nonZeroExit => simp [hir]
    | startFailure => exact absurd hir (h r hrm)
  omega

/-- Invocation oracle where candidate `b` exits non-zero and the rest exit
zero. -/
def inv3 : String → InvokeResult :=
  fun nm => if nm = "b" then .nonZeroExit else .success

/-- Witness for the amended C3: three candidates with the second invocation
exiting non-zero yield successful = 2, failed = 1, all three attempted, and
the failed list naming only the second. -/
theorem migration_partial_failure_witness :
    ∃ st : MigState,
      executeMigrations inv3
          [mkScanned "a" 1, mkScanned "b" 2, mkScanned "c" 3] initMigState =
        .ok st ∧
      st.attempted =
        ([mkScanned "a" 1, mkScanned "b" 2, mkScanned "c" 3]).map
          ScanResult.name ∧
      st.successful = ([mkScanned "a" 1, mkScanned "b" 2,
        mkScanned "c" 3]).countP (fun r => inv3 r.name == .success) ∧
      st.failed = ([mkScanned "a" 1, mkScanned "b" 2,
        mkScanned "c" 3]).countP (fun r => inv3 r.name == .nonZeroExit) ∧
      st.successful + st.failed =
        ([mkScanned "a" 1, mkScanned "b" 2, mkScanned "c" 3]).length ∧
      st.failed_dirs =
        (([mkScanned "a" 1, mkScanned "b" 2, mkScanned "c" 3]).filter
          (fun r => inv3 r.name == .nonZeroExit)).map ScanResult.name :=
  migration_partial_failure [mkScanned "a" 1, mkScanned "b" 2, mkScanned "c" 3]
    inv3 (by decide)

/-- Witness for C5 at concrete inputs: the empty list has rate 0, and a
one-candidate scanned list has a positive total with rate `1/1*100`. -/
theorem completion_rate_spec_witness :
    (get_statistics []).completion_rate = 0 ∧
      (get_statistics [ScanResult.init "a" true none none]).completion_rate =
        ((get_statistics [ScanResult.init "a" true none none]).scanned_directories : ℚ) /
          ((get_statistics [ScanResult.init "a" true none none]).total_directories : ℚ) * 100 :=
  ⟨(completion_rate_spec []).1 (by decide),
   (completion_rate_spec [ScanResult.init "a" true none none]).2 (by decide)⟩

/-- C4: aggregation never aborts — it yields one `ScanResult` per candidate,
each depending only on its own candidate (so a malformed artifact degrades
only that candidate); a malformed scan artifact gives `has_scan = false`, a
malformed clean artifact gives no clean data, and each malformed artifact
emits a warning that reaches the diagnostic stream. -/
theorem aggregation_isolates_malformed (cands : List CandidateFS) :
    ((scan_directories cands).1.length = cands.length) ∧
    ((scan_directories cands).1 =
      (List.insertionSort candLe cands).map aggregateCandidate) ∧
    (∀ c : CandidateFS, c.scanFile = .malformed →
      (aggregateCandidate c).has_scan = false ∧ candidateWarnings c ≠ []) ∧
    (∀ c : CandidateFS, c.cleanFile = .malformed →
      (aggregateCandidate c).has_clean_data = false ∧
        candidateWarnings c ≠ []) ∧
    (∀ c ∈ cands, candidateWarnings c ⊆ (scan_directories cands).2) := by
  refine ⟨?_, rfl, ?_, ?_, ?_⟩
  · simp [scan_directories, List.length_insertionSort]
  · intro c hc
    constructor
    · simp [aggregateCandidate, hc, ScanResult.init]
    · simp [candidateWarnings, hc]
  · intro c hc
    constructor
    · cases hs : c.scanFile <;>
        simp [aggregateCandidate, hc, hs, ScanResult.init,
          ScanResult.has_clean_data, emptyCleanData, CleanData.isEmptyDict]
    · simp [candidateWarnings, hc]
  · intro c hc x hx
    exact List.mem_flatMap.mpr
      ⟨c, (List.mem_insertionSort candLe).mpr hc, hx⟩

/-- A healthy candidate with both artifacts in order. -/
def goodCand (nm : String) : CandidateFS :=
  { dir := nm
    scanFile := .ok { size_bytes := some 5, file_count := some 2
                      scan_time := none, directory_mtime := none }
    cleanFile := .missing }

/-- A candidate whose scan artifact is present but unparseable. -/
def badCand : CandidateFS :=
  { dir := "c3", scanFile := .malformed, cleanFile := .missing }

/-- Five candidates, the third with a malformed scan artifact. -/
def cands5 : List CandidateFS :=
  [goodCand "c1", goodCand "c2", badCand, goodCand "c4", goodCand "c5"]

/-- Witness for C4: with one malformed scan artifact among five candidates,
aggregation still yields five results, the bad candidate is degraded with its
warning on the stream, and the other four are aggregated with scan data. -/
theorem aggregation_isolates_malformed_witness :
    badCand.scanFile = .malformed ∧ badCand ∈ cands5 ∧
    (aggregateCandidate badCand).has_scan = false ∧
    candidateWarnings badCand ⊆ (scan_directories cands5).2 ∧
    (scan_directories cands5).1.length = cands5.length ∧
    (scan_directories cands5).1.countP (fun r => r.has_scan) = 4 :=
  ⟨by decide, by decide,
   ((aggregation_isolates_malformed cands5).2.2.1 badCand (by decide)).1,
   (aggregation_isolates_malformed cands5).2.2.2.2 badCand (by decide),
   (aggregation_isolates_malformed cands5).1,
   by decide⟩

/-- C6: the retained shared-directory list keeps exactly the entries whose
count meets the threshold, ordered by count descending with name ascending on
ties; on counts x:2, y:3, z:2 with threshold 2 the order is y, x, z. -/
theorem shared_filter_sort_spec (counts : List (String × Nat)) (t : Int) :
    (∀ x, x ∈ sortedShared counts t ↔ x ∈ counts ∧ t ≤ (x.2 : Int)) ∧
    List.Sorted sharedRel (sortedShared counts t) ∧
    sortedShared [("x", 2), ("y", 3), ("z", 2)] 2 =
      [("y", 3), ("x", 2), ("z", 2)] := by
  refine ⟨?_, List.sorted_insertionSort _ _, by decide⟩
  intro x
  rw [sortedShared, List.mem_insertionSort, List.mem_filter]
  simp

/-- A parsed config whose `clean` sub-record is absent. -/
def cfgMissingClean : FileState ConfigJson :=
  .ok { clean := none, scan := { last_scan_time := none
                                 total_directories := 0
                                 total_size_bytes := 0 } }

/-- C7: the failing path of the modular threshold resolution.  A missing,
unparseable, or clean-less config resolves the threshold to `None`; the
ignore-list fallback works, but with any nonempty counts the display filter
then aborts with a `TypeError` instead of completing with the default
threshold 2 — the default the legacy monolith (and the config skeleton)
establish as the intended behaviour. -/
theorem shared_threshold_none_aborts :
    get_shared_directory_threshold .malformed = none ∧
    get_shared_directory_threshold .missing = none ∧
    get_shared_directory_threshold cfgMissingClean = none ∧
    get_shared_directory_ignore_list .malformed = implicit_ignores ∧
    display_shared_filter [("misc", 1)]
        (get_shared_directory_threshold .malformed) =
      .error "TypeError: unsupported comparison between int and NoneType" ∧
    legacy_get_shared_directory_threshold .malformed = 2 ∧
    legacy_get_shared_directory_threshold cfgMissingClean = 2 :=
  ⟨rfl, rfl, rfl, rfl, rfl, rfl, rfl⟩

/-- C8: for a readable config, the ignore list is the duplicate-free union of
the implicit infrastructure names and the configured additional names; in
particular `.freight` and `.ssh` are always in it. -/
theorem ignore_list_union (cfg : FileState ConfigJson) (add : List String)
    (h : get_additional_shared_ignores cfg = some add) :
    (∀ x, x ∈ get_shared_directory_ignore_list cfg ↔
      x ∈ implicit_ignores ∨ x ∈ add) ∧
    (get_shared_directory_ignore_list cfg).Nodup ∧
    ".freight" ∈ get_shared_directory_ignore_list cfg ∧
    ".ssh" ∈ get_shared_directory_ignore_list cfg := by
  have he : get_shared_directory_ignore_list cfg =
      (implicit_ignores ++ add).dedup := by
    rw [get_shared_directory_ignore_list, h]
  rw [he]
  refine ⟨fun x => ?_, List.nodup_dedup _, ?_, ?_⟩
  · rw [List.mem_dedup, List.mem_append]
  · rw [List.mem_dedup]
    exact List.mem_append_left _ (by decide)
  · rw [List.mem_dedup]
    exact List.mem_append_left _ (by decide)

/-- A readable config whose additional ignore list duplicates one implicit
name. -/
def cfg8 : FileState ConfigJson :=
  .ok { clean := some { shared_directory_threshold := some 2
                        shared_directory_ignore :=
                          some [".freight", "node_modules"] }
        scan := { last_scan_time := none, total_directories := 0
                  total_size_bytes := 0 } }

/-- Witness for C8: with configured additional ignores `.freight` and
`node_modules`, the combined list coalesces the duplicate and still contains
both implicit names. -/
theorem ignore_list_union_witness :
    (".freight" ∈ get_shared_directory_ignore_list cfg8 ∧
      ".ssh" ∈ get_shared_directory_ignore_list cfg8) ∧
    ("node_modules" ∈ get_shared_directory_ignore_list cfg8 ↔
      "node_modules" ∈ implicit_ignores ∨
        "node_modules" ∈ [".freight", "node_modules"]) ∧
    (get_shared_directory_ignore_list cfg8).Nodup ∧
    get_shared_directory_ignore_list cfg8 =
      [".ssh", ".freight", "node_modules"] :=
  ⟨⟨((ignore_list_union cfg8 [".freight", "node_modules"] (by decide)).2.2.1),
    ((ignore_list_union cfg8 [".freight", "node_modules"] (by decide)).2.2.2)⟩,
   (ignore_list_union cfg8 [".freight", "node_modules"] (by decide)).1
     "node_modules",
   (ignore_list_union cfg8 [".freight", "node_modules"] (by decide)).2.1,
   by decide⟩

/-- One scanned zero-size candidate. -/
def rsScanned : List ScanResult :=
  [ScanResult.init "a" true
    (some { size_bytes := some 0, file_count := some 0
            scan_time := none, directory_mtime := none }) none]

/-- One unscanned candidate. -/
def rsUnscanned : List ScanResult := [ScanResult.init "a" false none none]

/-- A readable config for the persistence counterexample. -/
def cfg9 : FileState ConfigJson :=
  .ok { clean := none, scan := { last_scan_time := none
                                 total_directories := 7
                                 total_size_bytes := 7 } }

/-- C9 counterexample: two candidate lists whose statistics differ in
`scanned_directories` and `completion_rate` persist to identical configs, so
those statistics are not persisted — only `total_directories` and
`total_size_bytes` are written to the `scan` sub-record. -/
theorem update_config_stats_loses_fields :
    (get_statistics rsScanned).scanned_directories ≠
      (get_statistics rsUnscanned).scanned_directories ∧
    (get_statistics rsScanned).completion_rate ≠
      (get_statistics rsUnscanned).completion_rate ∧
    update_config_stats cfg9 (get_statistics rsScanned) =
      update_config_stats cfg9 (get_statistics rsUnscanned) := by
  refine ⟨by decide, ?_, by decide⟩
  simp [get_statistics, rsScanned, rsUnscanned, ScanResult.init]

/-- C9 amended: each overview computation persists the statistics via
`update_config_stats`, which writes exactly `total_directories` and
`total_size_bytes` into the `scan` sub-record of a readable config and leaves
a missing or unparseable config untouched. -/
theorem config_stats_persistence :
    (∀ (c : ConfigJson) (stats : Stats),
      update_config_stats (.ok c) stats =
        .ok { c with scan := { c.scan with
                total_directories := (stats.total_directories : Int)
                total_size_bytes := stats.total_size_bytes } }) ∧
    (∀ stats : Stats, update_config_stats .missing stats = .missing) ∧
    (∀ stats : Stats, update_config_stats .malformed stats = .malformed) ∧
    (∀ (root : String) (cfg : FileState ConfigJson) (rs : List ScanResult),
      (get_overview_data root cfg rs).2 =
        update_config_stats cfg (get_statistics rs)) :=
  ⟨fun _ _ => rfl, fun _ => rfl, fun _ => rfl, fun _ _ _ => rfl⟩

/-- C10: a clean artifact parsing to the empty JSON object produces exactly
the state of a missing artifact — the `ScanResult`s are equal, so
`has_clean_data` is false, `bytes_cleaned` is 0, the problem-directory list is
empty, and the candidate contributes nothing to `total_cleanable_bytes`. -/
theorem empty_clean_artifact_neutral (d : String) (hs : Bool)
    (sd : Option ScanData) :
    ScanResult.init d hs sd (some emptyCleanData) =
      ScanResult.init d hs sd none ∧
    (ScanResult.init d hs sd (some emptyCleanData)).has_clean_data = false ∧
    (ScanResult.init d hs sd (some emptyCleanData)).bytes_cleaned = 0 ∧
    (ScanResult.init d hs sd (some emptyCleanData)).problem_directories =
      [] ∧
    ∀ rest : List ScanResult,
      (get_statistics
        (ScanResult.init d hs sd (some emptyCleanData) :: rest)).total_cleanable_bytes =
        (get_statistics rest).total_cleanable_bytes := by
  refine ⟨rfl, rfl, rfl, rfl, ?_⟩
  intro rest
  have hh : (ScanResult.init d hs sd (some emptyCleanData)).has_clean_data =
      false := rfl
  simp [get_statistics, List.filter_cons, hh]

end Freight
